import Mathlib

/-!
Shallow embedding of the todo CRUD service (src/index.ts).

The service keeps a SQLite table `todos (id INTEGER PRIMARY KEY AUTOINCREMENT,
title TEXT NOT NULL, completed BOOLEAN NOT NULL DEFAULT 0)` and exposes five
HTTP routes.  We embed:

* `jsParseInt10`  — JavaScript `parseInt(raw, 10)` (skip whitespace, optional
  sign, longest run of decimal digits, NaN when the run is empty), with NaN as
  `none`.  JavaScript numbers are IEEE doubles; we use exact integers, which
  agrees with the double semantics on the accept/reject decision of the hook
  because rounding a value of magnitude at least 1 never changes its sign and
  never sends it to zero.
* `parseIdHook`   — the preHandler hook: reject with 400 when the parse result
  is NaN or not strictly positive.
* `TodoState`     — the table contents (row list) together with the sqlite
  AUTOINCREMENT sequence value; rows store `completed` exactly as the column
  does, as the integer 0 or 1.
* one function per route handler, written from the handler bodies in
  src/index.ts.  The PUT handler issues two SQL statements (an existence check
  and then the mutation); `putTodoCore` therefore takes the table state seen
  by each statement separately, so that the deleted-in-between race the code
  comments on is expressible; the sequential route is the diagonal.

The handlers throw `fastify.httpErrors.notFound(...)` (and, on the PUT race,
`fastify.httpErrors.internalServerError(...)`), but the `httpErrors`
decorator is installed only by the sensible plugin, which this program never
registers — it registers only the two swagger plugins.  At runtime those
property accesses on `undefined` therefore throw a TypeError before any
404/500 helper can run, and the framework default error handler surfaces the
escaped exception as a 500 Internal Server Error response.  The embedding
renders every such path as `Resp.uncaught500`.
-/

namespace TodoApi

/-- Character class used by JavaScript `parseInt` when skipping leading
whitespace: WhiteSpace and LineTerminator code points. -/
def jsWhitespace (c : Char) : Bool :=
  let n := c.toNat
  n == 9 || n == 10 || n == 11 || n == 12 || n == 13 || n == 32 ||
  n == 160 || n == 0x1680 || (0x2000 ≤ n && n ≤ 0x200A) ||
  n == 0x2028 || n == 0x2029 || n == 0x202F || n == 0x205F ||
  n == 0x3000 || n == 0xFEFF

/-- Decimal digit, as `parseInt` with radix 10 consumes them. -/
def isDigitChar (c : Char) : Bool :=
  48 ≤ c.toNat && c.toNat ≤ 57

/-- Value of a digit run, most significant first. -/
def digitsToNat (acc : Nat) : List Char → Nat
  | [] => acc
  | c :: cs => digitsToNat (acc * 10 + (c.toNat - 48)) cs

/-- Optional leading sign of the numeric literal: the sign factor and the
remaining characters. -/
def splitSign (cs : List Char) : Int × List Char :=
  match cs with
  | [] => (1, [])
  | c :: r =>
    if c = '-' then (-1, r)
    else if c = '+' then (1, r)
    else (1, c :: r)

/-- Longest run of decimal digits at the front of `cs`, valued with the sign
factor; `none` models NaN (empty digit run). -/
def parseDigits (sign : Int) (cs : List Char) : Option Int :=
  if cs.takeWhile isDigitChar = [] then none
  else some (sign * (digitsToNat 0 (cs.takeWhile isDigitChar) : Nat))

/-- JavaScript `parseInt(s, 10)`: skip whitespace, read an optional sign, then
the longest run of decimal digits; `none` models NaN (empty digit run). -/
def jsParseInt10 (s : String) : Option Int :=
  let p := splitSign (s.data.dropWhile jsWhitespace)
  parseDigits p.1 p.2

/-- The `parseIdHook` preHandler of src/index.ts: parse the raw path
parameter; on NaN or a value at most 0 reply 400 (`none`); otherwise hand the
integer on to the handler (`some`). -/
def parseIdHook (raw : String) : Option Int :=
  match jsParseInt10 raw with
  | none => none
  | some v => if v ≤ 0 then none else some v

/-- A row of the `todos` table.  `completed` is stored exactly as the column
stores it: an integer that the code writes as 0 or 1 (0 encodes false). -/
structure Todo where
  id : Int
  title : String
  completed : Nat
deriving Repr, DecidableEq

/-- Table state: the rows in storage order and the AUTOINCREMENT sequence
value (the largest id ever assigned; the next insert uses `seq + 1`). -/
structure TodoState where
  rows : List Todo
  seq : Int
deriving Repr, DecidableEq

/-- HTTP responses the handlers can produce.  `uncaught500` is an exception
escaping the handler — here always the TypeError from reading a property of
the undefined `fastify.httpErrors` — which the framework default error
handler turns into a 500 Internal Server Error response; the message the
code meant to send never reaches the reply. -/
inductive Resp where
  | json (status : Nat) (body : Todo)
  | jsonList (status : Nat) (body : List Todo)
  | jsonNull (status : Nat)
  | errorJson (status : Nat) (error : String)
  | noContent
  | uncaught500
deriving Repr, DecidableEq

/-- SELECT * FROM todos WHERE id = ? followed by `.get`: the first matching
row, if any. -/
def findTodo (σ : TodoState) (id : Int) : Option Todo :=
  σ.rows.find? (fun r => r.id == id)

/-- GET /todos — return every row. -/
def getTodosRoute (σ : TodoState) : Resp :=
  Resp.jsonList 200 σ.rows

/-- GET /todos/:id — hook, then lookup.  On a missing row the handler line
`throw fastify.httpErrors.notFound("Todo not found")` evaluates a property
of the undefined `httpErrors` and raises a TypeError, answered as 500. -/
def getTodoRoute (σ : TodoState) (raw : String) : Resp :=
  match parseIdHook raw with
  | none => Resp.errorJson 400 "Invalid ID"
  | some id =>
    match findTodo σ id with
    | none => Resp.uncaught500
    | some t => Resp.json 200 t

/-- Body of POST /todos as the client may send it.  The handler destructures
only `title`; any other members of the JSON object (a client-supplied id,
completed flag, or arbitrary extra keys) are never read. -/
structure CreateBody where
  title : String
  clientId : Option Int
  clientCompleted : Option Bool
  extra : List (String × String)
deriving Repr, DecidableEq

/-- INSERT INTO todos (title, completed) VALUES (?, 0) RETURNING *: the new
row gets the next AUTOINCREMENT id and completed = 0. -/
def createTodo (σ : TodoState) (title : String) : Todo × TodoState :=
  let t : Todo := ⟨σ.seq + 1, title, 0⟩
  (t, ⟨σ.rows ++ [t], σ.seq + 1⟩)

/-- POST /todos — insert with completed = 0 and reply 201 with the new row. -/
def postTodosRoute (σ : TodoState) (body : CreateBody) : Resp × TodoState :=
  (Resp.json 201 (createTodo σ body.title).1, (createTodo σ body.title).2)

/-- Body of PUT /todos/:id: both fields optional. -/
structure UpdateBody where
  title : Option String
  completed : Option Bool
deriving Repr, DecidableEq

/-- Effect on one row of the dynamically built UPDATE statement: replace the
fields whose SET clause was appended; `completed ? 1 : 0` for the boolean. -/
def applyUpdate (b : UpdateBody) (r : Todo) : Todo :=
  ⟨r.id,
   match b.title with
   | some s => s
   | none => r.title,
   match b.completed with
   | some c => if c then 1 else 0
   | none => r.completed⟩

/-- UPDATE todos SET ... WHERE id = ?: rewrite every matching row. -/
def updateRows (σ : TodoState) (id : Int) (b : UpdateBody) : TodoState :=
  ⟨σ.rows.map (fun r => if r.id == id then applyUpdate b r else r), σ.seq⟩

/-- Body of the PUT handler after the hook.  `σc` is the table state observed
by the existence check (SELECT 1 ...), `σm` the state observed by the second
statement; sequentially the two coincide, and they differ exactly when another
request mutated the table between the two statements.  Both failure throws —
`httpErrors.notFound` on a failed check and `httpErrors.internalServerError`
when the update statement returns no row — are TypeErrors on the undefined
`httpErrors`, answered as 500. -/
def putTodoCore (σc σm : TodoState) (id : Int) (b : UpdateBody) :
    Resp × TodoState :=
  match findTodo σc id with
  | none => (Resp.uncaught500, σm)
  | some _ =>
    if b.title.isNone && b.completed.isNone then
      match findTodo σm id with
      | some t => (Resp.json 200 t, σm)
      | none => (Resp.jsonNull 200, σm)
    else
      match findTodo (updateRows σm id b) id with
      | some t => (Resp.json 200 t, updateRows σm id b)
      | none => (Resp.uncaught500, updateRows σm id b)

/-- PUT /todos/:id — hook, then the handler run sequentially (both SQL
statements see the same state). -/
def putTodoRoute (σ : TodoState) (raw : String) (b : UpdateBody) :
    Resp × TodoState :=
  match parseIdHook raw with
  | none => (Resp.errorJson 400 "Invalid ID", σ)
  | some id => putTodoCore σ σ id b

/-- DELETE FROM todos WHERE id = ? via `.run`: the affected-row count
(`result.changes`) and the new state. -/
def deleteTodo (σ : TodoState) (id : Int) : Nat × TodoState :=
  (σ.rows.countP (fun r => r.id == id),
   ⟨σ.rows.filter (fun r => !(r.id == id)), σ.seq⟩)

/-- DELETE /todos/:id — hook, delete, then 204 with an empty body when rows
were affected.  When zero rows were affected the handler line
`throw fastify.httpErrors.notFound("Todo not found")` raises a TypeError on
the undefined `httpErrors`, answered as 500. -/
def deleteTodoRoute (σ : TodoState) (raw : String) : Resp × TodoState :=
  match parseIdHook raw with
  | none => (Resp.errorJson 400 "Invalid ID", σ)
  | some id =>
    if (deleteTodo σ id).1 = 0 then
      (Resp.uncaught500, (deleteTodo σ id).2)
    else (Resp.noContent, (deleteTodo σ id).2)

/-- States reachable from the freshly created, empty table through the three
mutating routes, with arbitrary raw path parameters and request bodies. -/
inductive Reachable : TodoState → Prop
  | init : Reachable ⟨[], 0⟩
  | create (σ : TodoState) (b : CreateBody) :
      Reachable σ → Reachable (postTodosRoute σ b).2
  | put (σ : TodoState) (raw : String) (b : UpdateBody) :
      Reachable σ → Reachable (putTodoRoute σ raw b).2
  | del (σ : TodoState) (raw : String) :
      Reachable σ → Reachable (deleteTodoRoute σ raw).2

/-- Reading of claim C1 as written: the raw string, in its entirety, is a
base-10 integer literal (optional sign, digits, nothing else) whose value is
strictly greater than zero. -/
def specParsesAsPosInt (s : String) : Bool :=
  match s.data with
  | [] => false
  | c :: r =>
    if c = '-' then false
    else if c = '+' then !r.isEmpty && r.all isDigitChar && 0 < digitsToNat 0 r
    else (c :: r).all isDigitChar && 0 < digitsToNat 0 (c :: r)

/-- Decomposition characterizing the strings `parseInt(raw, 10)` accepts with
value `v`: optional whitespace, an optional sign, a nonempty digit run, then
anything that does not extend the digit run.  `sgn = some false` is a minus
sign, `some true` an explicit plus. -/
def signChars : Option Bool → List Char
  | none => []
  | some true => ['+']
  | some false => ['-']

/-- Sign factor of an optional sign character. -/
def signVal : Option Bool → Int
  | some false => -1
  | some true => 1
  | none => 1

/-- Spec-side (amended) description of the accepted strings and their parsed
value, following the words of the amended claim. -/
def amendedParses (s : String) (v : Int) : Prop :=
  ∃ ws sgn ds rest,
    s.data = ws ++ signChars sgn ++ ds ++ rest ∧
    (∀ c ∈ ws, jsWhitespace c = true) ∧
    ds ≠ [] ∧
    (∀ c ∈ ds, isDigitChar c = true) ∧
    (∀ c, rest.head? = some c → isDigitChar c = false) ∧
    v = signVal sgn * (digitsToNat 0 ds : Nat)

/-! Helper lemmas about takeWhile/dropWhile decompositions. -/

theorem dropWhile_append_all {p : Char → Bool} :
    ∀ (a b : List Char), (∀ c ∈ a, p c = true) →
      (∀ c, b.head? = some c → p c = false) →
      (a ++ b).dropWhile p = b := by
  intro a
  induction a with
  | nil =>
    intro b _ hb
    cases b with
    | nil => rfl
    | cons x xs => simp [List.dropWhile_cons, hb x rfl]
  | cons x xs ih =>
    intro b ha hb
    have hx : p x = true := ha x (List.mem_cons_self x xs)
    simp only [List.cons_append, List.dropWhile_cons, hx, if_true]
    exact ih b (fun c hc => ha c (List.mem_cons_of_mem x hc)) hb

theorem takeWhile_append_all {p : Char → Bool} :
    ∀ (a b : List Char), (∀ c ∈ a, p c = true) →
      (∀ c, b.head? = some c → p c = false) →
      (a ++ b).takeWhile p = a := by
  intro a
  induction a with
  | nil =>
    intro b _ hb
    cases b with
    | nil => rfl
    | cons x xs => simp [List.takeWhile_cons, hb x rfl]
  | cons x xs ih =>
    intro b ha hb
    have hx : p x = true := ha x (List.mem_cons_self x xs)
    simp only [List.cons_append, List.takeWhile_cons, hx, if_true]
    rw [ih b (fun c hc => ha c (List.mem_cons_of_mem x hc)) hb]

theorem head_dropWhile_false {p : Char → Bool} :
    ∀ (l : List Char) (c : Char), (l.dropWhile p).head? = some c →
      p c = false := by
  intro l
  induction l with
  | nil => intro c h; simp at h
  | cons x xs ih =>
    intro c h
    by_cases hx : p x = true
    · rw [List.dropWhile_cons, if_pos hx] at h
      exact ih c h
    · rw [List.dropWhile_cons, if_neg hx] at h
      simp only [List.head?_cons, Option.some.injEq] at h
      subst h
      exact Bool.eq_false_iff.mpr hx

theorem mem_takeWhile_true {p : Char → Bool} :
    ∀ (l : List Char) (c : Char), c ∈ l.takeWhile p → p c = true := by
  intro l
  induction l with
  | nil => intro c h; simp at h
  | cons x xs ih =>
    intro c h
    by_cases hx : p x = true
    · rw [List.takeWhile_cons, if_pos hx] at h
      rcases List.mem_cons.mp h with h | h
      · subst h; exact hx
      · exact ih c h
    · rw [List.takeWhile_cons, if_neg hx] at h
      simp at h

theorem digit_not_whitespace {c : Char} (h : isDigitChar c = true) :
    jsWhitespace c = false := by
  simp only [isDigitChar, Bool.and_eq_true, decide_eq_true_eq] at h
  simp only [jsWhitespace, Bool.or_eq_false_iff, Bool.and_eq_false_iff,
    beq_eq_false_iff_ne, ne_eq, decide_eq_false_iff_not, not_le]
  omega

theorem splitSign_nil : splitSign [] = (1, []) := rfl

theorem splitSign_minus (r : List Char) : splitSign ('-' :: r) = (-1, r) := by
  simp [splitSign]

theorem splitSign_plus (r : List Char) : splitSign ('+' :: r) = (1, r) := by
  simp [splitSign]

theorem splitSign_other {c : Char} (r : List Char) (h1 : ¬ c = '-')
    (h2 : ¬ c = '+') : splitSign (c :: r) = (1, c :: r) := by
  simp [splitSign, h1, h2]

theorem jsParseInt10_eq_parseDigits (s : String) (sign : Int)
    (rest : List Char)
    (h : splitSign (s.data.dropWhile jsWhitespace) = (sign, rest)) :
    jsParseInt10 s = parseDigits sign rest := by
  unfold jsParseInt10
  rw [h]

/-- Characterization of `parseInt(s, 10)`: it returns `v` exactly when the
string decomposes as whitespace, optional sign, a maximal nonempty digit run
of signed value `v`, then arbitrary trailing characters. -/
theorem jsParseInt10_some_iff (s : String) (v : Int) :
    jsParseInt10 s = some v ↔ amendedParses s v := by
  constructor
  · intro h
    have hsplit : s.data =
        s.data.takeWhile jsWhitespace ++ s.data.dropWhile jsWhitespace := by
      rw [List.takeWhile_append_dropWhile]
    have hws : ∀ c ∈ s.data.takeWhile jsWhitespace, jsWhitespace c = true :=
      fun c hc => mem_takeWhile_true _ c hc
    rcases hcs : s.data.dropWhile jsWhitespace with _ | ⟨c, r⟩
    · rw [jsParseInt10_eq_parseDigits s 1 [] (by rw [hcs]; rfl)] at h
      simp [parseDigits] at h
    · by_cases hminus : c = '-'
      · subst hminus
        rw [jsParseInt10_eq_parseDigits s (-1) r
          (by rw [hcs]; exact splitSign_minus r)] at h
        unfold parseDigits at h
        rcases hds : r.takeWhile isDigitChar with _ | ⟨d, dsone⟩
        · rw [hds] at h; simp at h
        · rw [hds, if_neg (List.cons_ne_nil d _)] at h
          refine ⟨s.data.takeWhile jsWhitespace, some false,
            r.takeWhile isDigitChar, r.dropWhile isDigitChar, ?_, hws, ?_, ?_, ?_, ?_⟩
          · simp only [signChars, List.nil_append, List.singleton_append,
              List.cons_append, List.append_assoc,
              List.takeWhile_append_dropWhile]
            rw [← hcs, List.takeWhile_append_dropWhile]
          · rw [hds]; exact List.cons_ne_nil d _
          · exact fun a ha => mem_takeWhile_true _ a ha
          · exact fun a ha => head_dropWhile_false _ a ha
          · rw [hds, signVal]
            exact (Option.some.injEq _ _).mp h.symm
      · by_cases hplus : c = '+'
        · subst hplus
          rw [jsParseInt10_eq_parseDigits s 1 r
            (by rw [hcs]; exact splitSign_plus r)] at h
          unfold parseDigits at h
          rcases hds : r.takeWhile isDigitChar with _ | ⟨d, dsone⟩
          · rw [hds] at h; simp at h
          · rw [hds, if_neg (List.cons_ne_nil d _)] at h
            refine ⟨s.data.takeWhile jsWhitespace, some true,
              r.takeWhile isDigitChar, r.dropWhile isDigitChar, ?_, hws, ?_, ?_, ?_, ?_⟩
            · simp only [signChars, List.nil_append, List.singleton_append,
                List.cons_append, List.append_assoc,
                List.takeWhile_append_dropWhile]
              rw [← hcs, List.takeWhile_append_dropWhile]
            · rw [hds]; exact List.cons_ne_nil d _
            · exact fun a ha => mem_takeWhile_true _ a ha
            · exact fun a ha => head_dropWhile_false _ a ha
            · rw [hds, signVal]
              exact (Option.some.injEq _ _).mp h.symm
        · rw [jsParseInt10_eq_parseDigits s 1 (c :: r)
            (by rw [hcs]; exact splitSign_other r hminus hplus)] at h
          unfold parseDigits at h
          rcases hds : (c :: r).takeWhile isDigitChar with _ | ⟨d, dsone⟩
          · rw [hds] at h; simp at h
          · rw [hds, if_neg (List.cons_ne_nil d _)] at h
            refine ⟨s.data.takeWhile jsWhitespace, none,
              (c :: r).takeWhile isDigitChar, (c :: r).dropWhile isDigitChar,
              ?_, hws, ?_, ?_, ?_, ?_⟩
            · simp only [signChars, List.nil_append, List.singleton_append,
                List.cons_append, List.append_assoc,
                List.takeWhile_append_dropWhile]
              rw [← hcs, List.takeWhile_append_dropWhile]
            · rw [hds]; exact List.cons_ne_nil d _
            · exact fun a ha => mem_takeWhile_true _ a ha
            · exact fun a ha => head_dropWhile_false _ a ha
            · rw [hds, signVal]
              exact (Option.some.injEq _ _).mp h.symm
  · rintro ⟨ws, sgn, ds, rest, hdecomp, hws, hne, hds, hrest, hv⟩
    rcases hcons : ds with _ | ⟨d, dsone⟩
    · exact absurd hcons hne
    subst hcons
    have hd : isDigitChar d = true := hds d (List.mem_cons_self d dsone)
    have hdecompA : s.data = ws ++ (signChars sgn ++ (d :: (dsone ++ rest))) := by
      rw [hdecomp]
      simp [List.append_assoc]
    have hhead : ∀ a, (signChars sgn ++ (d :: (dsone ++ rest))).head? = some a →
        jsWhitespace a = false := by
      intro a ha
      cases sgn with
      | none =>
        simp only [signChars, List.nil_append, List.head?_cons,
          Option.some.injEq] at ha
        subst ha
        exact digit_not_whitespace hd
      | some b =>
        cases b with
        | true =>
          simp only [signChars, List.cons_append, List.head?_cons,
            Option.some.injEq] at ha
          subst ha; decide
        | false =>
          simp only [signChars, List.cons_append, List.head?_cons,
            Option.some.injEq] at ha
          subst ha; decide
    have hdrop : s.data.dropWhile jsWhitespace =
        signChars sgn ++ (d :: (dsone ++ rest)) := by
      rw [hdecompA]
      exact dropWhile_append_all ws _ hws hhead
    have htake : ((d :: dsone) ++ rest).takeWhile isDigitChar = d :: dsone :=
      takeWhile_append_all (d :: dsone) rest hds hrest
    rw [List.cons_append] at htake
    cases sgn with
    | none =>
      have hdne : ¬ d = '-' := by
        intro e; subst e; exact absurd hd (by decide)
      have hdnp : ¬ d = '+' := by
        intro e; subst e; exact absurd hd (by decide)
      rw [jsParseInt10_eq_parseDigits s 1 (d :: (dsone ++ rest))
        (by rw [hdrop]; simp only [signChars, List.nil_append]
            exact splitSign_other _ hdne hdnp)]
      unfold parseDigits
      rw [htake, if_neg (List.cons_ne_nil d _), hv]
      simp [signVal]
    | some b =>
      cases b with
      | true =>
        rw [jsParseInt10_eq_parseDigits s 1 (d :: (dsone ++ rest))
          (by rw [hdrop]; simp only [signChars, List.cons_append]
              exact splitSign_plus _)]
        unfold parseDigits
        rw [htake, if_neg (List.cons_ne_nil d _), hv]
        simp [signVal]
      | false =>
        rw [jsParseInt10_eq_parseDigits s (-1) (d :: (dsone ++ rest))
          (by rw [hdrop]; simp only [signChars, List.cons_append]
              exact splitSign_minus _)]
        unfold parseDigits
        rw [htake, if_neg (List.cons_ne_nil d _), hv]
        simp [signVal]

/-! Helper lemmas about the storage operations. -/

theorem applyUpdate_id (b : UpdateBody) (r : Todo) :
    (applyUpdate b r).id = r.id := rfl

theorem find_map_update (rows : List Todo) (id : Int) (b : UpdateBody) :
    (rows.map (fun r => if r.id == id then applyUpdate b r else r)).find?
        (fun r => r.id == id) =
      (rows.find? (fun r => r.id == id)).map (applyUpdate b) := by
  induction rows with
  | nil => rfl
  | cons r rows ih =>
    cases hr : (r.id == id) with
    | true =>
      simp only [List.map_cons, List.find?_cons, applyUpdate_id, hr, if_true]
      rfl
    | false =>
      simp only [List.map_cons, List.find?_cons, applyUpdate_id, hr,
        Bool.false_eq_true, if_false]
      exact ih

theorem findTodo_updateRows_self (σ : TodoState) (id : Int) (b : UpdateBody) :
    findTodo (updateRows σ id b) id = (findTodo σ id).map (applyUpdate b) :=
  find_map_update σ.rows id b

theorem find_map_update_ne (rows : List Todo) (k j : Int) (b : UpdateBody)
    (h : ¬ j = k) :
    (rows.map (fun r => if r.id == k then applyUpdate b r else r)).find?
        (fun r => r.id == j) =
      rows.find? (fun r => r.id == j) := by
  induction rows with
  | nil => rfl
  | cons r rows ih =>
    cases hj : (r.id == j) with
    | true =>
      have hk : (r.id == k) = false := by
        cases hk : (r.id == k) with
        | false => rfl
        | true => exact absurd (beq_iff_eq.mp hj ▸ beq_iff_eq.mp hk) h
      simp only [List.map_cons, List.find?_cons, applyUpdate_id, hj, hk,
        Bool.false_eq_true, if_false]
    | false =>
      cases hk : (r.id == k) with
      | true =>
        simp only [List.map_cons, List.find?_cons, applyUpdate_id, hj, hk,
          if_true, Bool.false_eq_true]
        exact ih
      | false =>
        simp only [List.map_cons, List.find?_cons, applyUpdate_id, hj, hk,
          Bool.false_eq_true, if_false]
        exact ih

theorem find_filter_ne (rows : List Todo) (k j : Int) (h : ¬ j = k) :
    (rows.filter (fun r => !(r.id == k))).find? (fun r => r.id == j) =
      rows.find? (fun r => r.id == j) := by
  induction rows with
  | nil => rfl
  | cons r rows ih =>
    cases hk : (r.id == k) with
    | true =>
      have hj : (r.id == j) = false := by
        cases hj : (r.id == j) with
        | false => rfl
        | true => exact absurd (beq_iff_eq.mp hj ▸ beq_iff_eq.mp hk) h
      simp only [List.filter_cons, hk, Bool.not_true, Bool.false_eq_true,
        if_false, List.find?_cons, hj]
      exact ih
    | false =>
      simp only [List.filter_cons, hk, Bool.not_false, if_true,
        List.find?_cons]
      cases hj : (r.id == j) with
      | true => simp only [hj]
      | false =>
        simp only [hj]
        exact ih

theorem find_append_none {p : Todo → Bool} (l1 l2 : List Todo)
    (h : l1.find? p = none) : (l1 ++ l2).find? p = l2.find? p := by
  induction l1 with
  | nil => rfl
  | cons r l1 ih =>
    cases hr : p r with
    | true =>
      rw [List.find?_cons, hr] at h
      exact absurd h (by simp)
    | false =>
      rw [List.find?_cons, hr] at h
      rw [List.cons_append, List.find?_cons, hr]
      exact ih h

/-- Ids are bounded by the AUTOINCREMENT sequence value. -/
def idsBounded (σ : TodoState) : Prop :=
  ∀ r ∈ σ.rows, r.id ≤ σ.seq

theorem updateRows_shape (σ : TodoState) (id : Int) (b : UpdateBody) :
    (updateRows σ id b).seq = σ.seq ∧
    ∀ r ∈ (updateRows σ id b).rows, ∃ r0 ∈ σ.rows,
      r.id = r0.id ∧
      (r.completed = r0.completed ∨ r.completed = 0 ∨ r.completed = 1) := by
  refine ⟨rfl, ?_⟩
  intro r hr
  rcases List.mem_map.mp hr with ⟨r0, hr0, heq⟩
  refine ⟨r0, hr0, ?_⟩
  by_cases hk : (r0.id == id) = true
  · rw [if_pos hk] at heq
    subst heq
    refine ⟨rfl, ?_⟩
    unfold applyUpdate
    rcases b.completed with _ | c
    · exact Or.inl rfl
    · rcases c with _ | _
      · exact Or.inr (Or.inl rfl)
      · exact Or.inr (Or.inr rfl)
  · rw [if_neg hk] at heq
    subst heq
    exact ⟨rfl, Or.inl rfl⟩

theorem putTodoCore_state (σc σm : TodoState) (id : Int) (b : UpdateBody) :
    (putTodoCore σc σm id b).2 = σm ∨
    (putTodoCore σc σm id b).2 = updateRows σm id b := by
  unfold putTodoCore
  split
  · exact Or.inl rfl
  · split
    · split
      · exact Or.inl rfl
      · exact Or.inl rfl
    · split
      · exact Or.inr rfl
      · exact Or.inr rfl

theorem putTodoRoute_state (σ : TodoState) (raw : String) (b : UpdateBody) :
    (putTodoRoute σ raw b).2 = σ ∨
    ∃ id, (putTodoRoute σ raw b).2 = updateRows σ id b := by
  unfold putTodoRoute
  split
  · exact Or.inl rfl
  · rcases putTodoCore_state σ σ _ b with h | h
    · exact Or.inl h
    · exact Or.inr ⟨_, h⟩

theorem deleteTodoRoute_state (σ : TodoState) (raw : String) :
    (deleteTodoRoute σ raw).2 = σ ∨
    ∃ id, (deleteTodoRoute σ raw).2 =
      ⟨σ.rows.filter (fun r => !(r.id == id)), σ.seq⟩ := by
  unfold deleteTodoRoute deleteTodo
  split
  · exact Or.inl rfl
  · split
    · exact Or.inr ⟨_, rfl⟩
    · exact Or.inr ⟨_, rfl⟩

theorem reachable_idsBounded {σ : TodoState} (h : Reachable σ) :
    idsBounded σ := by
  induction h with
  | init => intro r hr; exact absurd hr (List.not_mem_nil r)
  | create σ b _ ih =>
    intro r hr
    rcases List.mem_append.mp hr with hr | hr
    · have := ih r hr
      have h2 : (postTodosRoute σ b).2.seq = σ.seq + 1 := rfl
      rw [h2]
      omega
    · rcases List.mem_singleton.mp hr with rfl
      exact le_refl _
  | put σ raw b _ ih =>
    rcases putTodoRoute_state σ raw b with h2 | ⟨id, h2⟩
    · rw [h2]; exact ih
    · rw [h2]
      intro r hr
      rcases (updateRows_shape σ id b).2 r hr with ⟨r0, hr0, hid, _⟩
      rw [(updateRows_shape σ id b).1, hid]
      exact ih r0 hr0
  | del σ raw _ ih =>
    rcases deleteTodoRoute_state σ raw with h2 | ⟨id, h2⟩
    · rw [h2]; exact ih
    · rw [h2]
      intro r hr
      exact ih r (List.mem_of_mem_filter hr)


/-! Claim theorems. -/

/-- C1, counterexample: the claim "validation accepts the string if and only
if it parses as a base-10 integer strictly greater than zero" is false on the
code: the hook accepts "12abc" (parseInt stops at the first non-digit and
yields 12) although "12abc" is not a base-10 integer literal. -/
theorem parseId_claim_counterexample :
    parseIdHook "12abc" = some 12 ∧ specParsesAsPosInt "12abc" = false := by
  exact ⟨by decide, by decide⟩

/-- C1 (amended): on every id route, validation accepts a raw id string iff,
after optional leading whitespace and an optional sign, the string starts with
at least one decimal digit and the signed value of the longest leading digit
run is strictly greater than zero; trailing non-digit characters are ignored
(so "12abc" is accepted as 12) and overflowing digit runs are accepted.  "0",
"-1", "abc" and "" are rejected, "1" and "42" accepted, and a rejected string
receives 400 Invalid ID from each route with the table state untouched,
before any storage operation. -/
theorem parseId_amended (raw : String) :
    (∀ v, parseIdHook raw = some v ↔ amendedParses raw v ∧ 0 < v) ∧
    (parseIdHook "0" = none ∧ parseIdHook "-1" = none ∧
     parseIdHook "abc" = none ∧ parseIdHook "" = none ∧
     parseIdHook "1" = some 1 ∧ parseIdHook "42" = some 42 ∧
     parseIdHook "12abc" = some 12 ∧
     (parseIdHook "100000000000000000000000").isSome = true) ∧
    (parseIdHook raw = none → ∀ σ b,
      getTodoRoute σ raw = Resp.errorJson 400 "Invalid ID" ∧
      putTodoRoute σ raw b = (Resp.errorJson 400 "Invalid ID", σ) ∧
      deleteTodoRoute σ raw = (Resp.errorJson 400 "Invalid ID", σ)) := by
  refine ⟨?_, ?_, ?_⟩
  · intro v
    constructor
    · intro h
      rcases hj : jsParseInt10 raw with _ | w
      · simp only [parseIdHook, hj] at h
        exact absurd h (by simp)
      · simp only [parseIdHook, hj] at h
        by_cases hw : w ≤ 0
        · rw [if_pos hw] at h
          exact absurd h (by simp)
        · rw [if_neg hw] at h
          simp only [Option.some.injEq] at h
          subst h
          exact ⟨(jsParseInt10_some_iff raw _).mp hj, by omega⟩
    · rintro ⟨hp, hv⟩
      have hj : jsParseInt10 raw = some v := (jsParseInt10_some_iff raw v).mpr hp
      simp only [parseIdHook, hj]
      rw [if_neg (by omega)]
  · exact ⟨by decide, by decide, by decide, by decide, by decide, by decide,
      by decide, by decide⟩
  · intro h σ b
    refine ⟨?_, ?_, ?_⟩
    · unfold getTodoRoute
      rw [h]
    · unfold putTodoRoute
      rw [h]
    · unfold deleteTodoRoute
      rw [h]

/-- Witness for parseId_amended: the rejected string "abc" really makes the
GET route answer 400 on a nonempty table. -/
theorem parseId_amended_witness :
    getTodoRoute ⟨[⟨1, "x", 0⟩], 1⟩ "abc" = Resp.errorJson 400 "Invalid ID" :=
  ((parseId_amended "abc").2.2 (by decide) ⟨[⟨1, "x", 0⟩], 1⟩
    ⟨none, none⟩).1

/-- C2, actual behavior at the failing input: GET /todos/:id with a valid id
does reply 200 with the stored todo when it exists, but when no row with that
id exists the handler throws a TypeError on the undefined
`fastify.httpErrors` and the response is an uncaught-exception 500, not the
404 Todo not found body the claim (and the code's own 404 response schema and
intended notFound message) describe. -/
theorem getTodo_route_actual (σ : TodoState) (raw : String) (id : Int)
    (h : parseIdHook raw = some id) :
    (∀ t, findTodo σ id = some t → getTodoRoute σ raw = Resp.json 200 t) ∧
    (findTodo σ id = none → getTodoRoute σ raw = Resp.uncaught500) ∧
    Resp.uncaught500 ≠ Resp.errorJson 404 "Todo not found" := by
  refine ⟨?_, ?_, by decide⟩
  · intro t ht
    simp only [getTodoRoute, h, ht]
  · intro ht
    simp only [getTodoRoute, h, ht]

/-- Witness for getTodo_route_actual: the 200 branch on a stored row, and the
uncaught-500 outcome of GET /todos/1 on an empty table. -/
theorem getTodo_route_actual_witness :
    getTodoRoute ⟨[⟨1, "Buy milk", 0⟩], 1⟩ "1" =
      Resp.json 200 ⟨1, "Buy milk", 0⟩ ∧
    getTodoRoute ⟨[], 0⟩ "1" = Resp.uncaught500 :=
  ⟨(getTodo_route_actual ⟨[⟨1, "Buy milk", 0⟩], 1⟩ "1" 1 (by decide)).1
      ⟨1, "Buy milk", 0⟩ (by decide),
   (getTodo_route_actual ⟨[], 0⟩ "1" 1 (by decide)).2.1 (by decide)⟩

/-- C3: POST /todos appends exactly one new row and replies 201 with it; the
new row's completed value is 0 (false) regardless of anything else in the
body, its title is the body's title, and its id is the storage-assigned next
AUTOINCREMENT value. -/
theorem postTodos_route_correct (σ : TodoState) (body : CreateBody) :
    ∃ t : Todo,
      postTodosRoute σ body =
        (Resp.json 201 t, ⟨σ.rows ++ [t], σ.seq + 1⟩) ∧
      t.completed = 0 ∧ t.title = body.title ∧ t.id = σ.seq + 1 :=
  ⟨⟨σ.seq + 1, body.title, 0⟩, rfl, rfl, rfl, rfl⟩

/-- C10: the row POST /todos inserts and the response it sends depend only on
the body's title and the prior table state: bodies that agree on title give
identical outcomes even when a client-sent id, completed flag or extra
members differ. -/
theorem create_noninterference (σ : TodoState) (b1 b2 : CreateBody)
    (h : b1.title = b2.title) :
    postTodosRoute σ b1 = postTodosRoute σ b2 := by
  unfold postTodosRoute
  rw [h]

/-- Witness for create_noninterference: two bodies differing in a client id,
a client completed flag and an extra member, same title. -/
theorem create_noninterference_witness :
    postTodosRoute ⟨[], 0⟩ ⟨"Buy milk", some 99, some true, [("a", "b")]⟩ =
      postTodosRoute ⟨[], 0⟩ ⟨"Buy milk", none, none, []⟩ :=
  create_noninterference ⟨[], 0⟩ _ _ rfl

/-- C4: the PUT handler touches only the supplied fields: with only completed
supplied the title keeps its prior value, with only title supplied the
completed value keeps its prior value, and with neither supplied the handler
still succeeds, returning the current record unchanged (id included) and
leaving the table untouched. -/
theorem putTodo_partial_fields (σ : TodoState) (id : Int) (t : Todo)
    (h : findTodo σ id = some t) :
    (∀ c : Bool, putTodoCore σ σ id ⟨none, some c⟩ =
      (Resp.json 200 ⟨t.id, t.title, if c then 1 else 0⟩,
       updateRows σ id ⟨none, some c⟩)) ∧
    (∀ s : String, putTodoCore σ σ id ⟨some s, none⟩ =
      (Resp.json 200 ⟨t.id, s, t.completed⟩,
       updateRows σ id ⟨some s, none⟩)) ∧
    putTodoCore σ σ id ⟨none, none⟩ = (Resp.json 200 t, σ) := by
  have key : ∀ b : UpdateBody, findTodo (updateRows σ id b) id =
      some (applyUpdate b t) := by
    intro b
    rw [findTodo_updateRows_self, h]
    rfl
  refine ⟨?_, ?_, ?_⟩
  · intro c
    simp only [putTodoCore, h, key ⟨none, some c⟩, Option.isNone_none,
      Option.isNone_some, Bool.true_and, Bool.and_false, Bool.false_eq_true,
      if_false]
    rfl
  · intro s
    simp only [putTodoCore, h, key ⟨some s, none⟩, Option.isNone_none,
      Option.isNone_some, Bool.false_and, Bool.and_true, Bool.false_eq_true,
      if_false]
    rfl
  · simp only [putTodoCore, h, Option.isNone_none, Bool.and_self, if_true]

/-- Witness for putTodo_partial_fields: completing the single stored todo
keeps its title. -/
theorem putTodo_partial_fields_witness :
    putTodoCore ⟨[⟨1, "Buy milk", 0⟩], 1⟩ ⟨[⟨1, "Buy milk", 0⟩], 1⟩ 1
        ⟨none, some true⟩ =
      (Resp.json 200 ⟨1, "Buy milk", 1⟩,
       updateRows ⟨[⟨1, "Buy milk", 0⟩], 1⟩ 1 ⟨none, some true⟩) :=
  (putTodo_partial_fields ⟨[⟨1, "Buy milk", 0⟩], 1⟩ 1 ⟨1, "Buy milk", 0⟩
    (by decide)).1 true

/-- C5, actual behavior at the failing input: PUT /todos/:id with a valid id
replies 200 with the updated record when the update statement finds the row,
but a failed existence check throws a TypeError on the undefined
`fastify.httpErrors` and the response is an uncaught-exception 500, not the
404 the claim states; the deleted-in-between race also ends in the
uncaught-exception 500 (status as claimed, though via the TypeError rather
than the intended Failed to update todo reply). -/
theorem putTodo_status_actual (σ1 σ2 : TodoState) (raw : String) (id : Int)
    (b : UpdateBody) (_h : parseIdHook raw = some id) :
    (findTodo σ1 id = none →
      putTodoCore σ1 σ2 id b = (Resp.uncaught500, σ2)) ∧
    (∀ t0, findTodo σ1 id = some t0 →
      (b.title.isNone && b.completed.isNone) = false →
      findTodo σ2 id = none →
      putTodoCore σ1 σ2 id b = (Resp.uncaught500, updateRows σ2 id b)) ∧
    (∀ t0 t, findTodo σ1 id = some t0 →
      (b.title.isNone && b.completed.isNone) = false →
      findTodo σ2 id = some t →
      putTodoCore σ1 σ2 id b =
        (Resp.json 200 (applyUpdate b t), updateRows σ2 id b)) ∧
    Resp.uncaught500 ≠ Resp.errorJson 404 "Todo not found" := by
  refine ⟨?_, ?_, ?_, by decide⟩
  · intro h1
    simp only [putTodoCore, h1]
  · intro t0 h1 hb h2
    have hupd : findTodo (updateRows σ2 id b) id = none := by
      rw [findTodo_updateRows_self, h2]
      rfl
    simp only [putTodoCore, h1, hb, Bool.false_eq_true, if_false, hupd]
  · intro t0 t h1 hb h2
    have hupd : findTodo (updateRows σ2 id b) id = some (applyUpdate b t) := by
      rw [findTodo_updateRows_self, h2]
      rfl
    simp only [putTodoCore, h1, hb, Bool.false_eq_true, if_false, hupd]

/-- Witness for putTodo_status_actual: a PUT whose existence check runs
against an empty table ends in the uncaught-exception 500. -/
theorem putTodo_status_actual_witness :
    putTodoCore ⟨[], 1⟩ ⟨[], 1⟩ 1 ⟨none, some true⟩ =
      (Resp.uncaught500, ⟨[], 1⟩) :=
  (putTodo_status_actual ⟨[], 1⟩ ⟨[], 1⟩ "1" 1 ⟨none, some true⟩
    (by decide)).1 (by decide)

/-- C6, actual behavior at the failing input: DELETE /todos/:id with a valid
id replies 204 with an empty body and removes the matching rows when one
existed; when the delete statement affected zero rows the handler throws a
TypeError on the undefined `fastify.httpErrors` and the response is an
uncaught-exception 500, not the 404 Todo not found the claim states — so
deleting the same id twice gives 204 and then that 500; the not-found
decision is still exactly "the affected-row count of the delete statement is
zero". -/
theorem deleteTodo_route_actual (σ : TodoState) (raw : String) (id : Int)
    (h : parseIdHook raw = some id) :
    ((∃ r ∈ σ.rows, r.id = id) →
      deleteTodoRoute σ raw =
        (Resp.noContent, ⟨σ.rows.filter (fun r => !(r.id == id)), σ.seq⟩)) ∧
    ((∀ r ∈ σ.rows, ¬ r.id = id) →
      deleteTodoRoute σ raw = (Resp.uncaught500, σ)) ∧
    ((deleteTodoRoute σ raw).1 = Resp.uncaught500 ↔
      (deleteTodo σ id).1 = 0) ∧
    ((∃ r ∈ σ.rows, r.id = id) →
      (deleteTodoRoute (deleteTodoRoute σ raw).2 raw).1 = Resp.uncaught500) ∧
    Resp.uncaught500 ≠ Resp.errorJson 404 "Todo not found" := by
  have hc : (deleteTodo σ id).1 = 0 ↔ ∀ r ∈ σ.rows, ¬ r.id = id := by
    show σ.rows.countP (fun r => r.id == id) = 0 ↔ _
    rw [List.countP_eq_zero]
    simp only [beq_iff_eq]
  have hne : (∃ r ∈ σ.rows, r.id = id) → ¬ (deleteTodo σ id).1 = 0 := by
    rintro ⟨r, hr, hid⟩ h0
    exact (hc.mp h0) r hr hid
  refine ⟨?_, ?_, ?_, ?_, by decide⟩
  · intro he
    simp only [deleteTodoRoute, h]
    rw [if_neg (hne he)]
    rfl
  · intro hall
    have hfilter : σ.rows.filter (fun r => !(r.id == id)) = σ.rows := by
      rw [List.filter_eq_self]
      intro a ha
      have : (a.id == id) = false := by
        cases hb : (a.id == id) with
        | false => rfl
        | true => exact absurd (beq_iff_eq.mp hb) (hall a ha)
      rw [this]
      rfl
    simp only [deleteTodoRoute, h]
    rw [if_pos (hc.mpr hall)]
    show (Resp.uncaught500,
      (⟨σ.rows.filter (fun r => !(r.id == id)), σ.seq⟩ : TodoState)) = _
    rw [hfilter]
  · by_cases h0 : (deleteTodo σ id).1 = 0
    · constructor
      · intro _
        exact h0
      · intro _
        simp only [deleteTodoRoute, h]
        rw [if_pos h0]
    · constructor
      · intro hcontra
        exfalso
        simp only [deleteTodoRoute, h] at hcontra
        rw [if_neg h0] at hcontra
        exact Resp.noConfusion hcontra
      · intro h1
        exact absurd h1 h0
  · intro he
    have hstate : (deleteTodoRoute σ raw).2 =
        ⟨σ.rows.filter (fun r => !(r.id == id)), σ.seq⟩ := by
      simp only [deleteTodoRoute, h]
      rw [if_neg (hne he)]
      rfl
    rw [hstate]
    have hzero : (deleteTodo
        ⟨σ.rows.filter (fun r => !(r.id == id)), σ.seq⟩ id).1 = 0 := by
      show List.countP _ _ = 0
      rw [List.countP_eq_zero]
      intro a ha
      rcases List.mem_filter.mp ha with ⟨_, hflag⟩
      intro hcontra
      rw [hcontra] at hflag
      exact absurd hflag (by decide)
    simp only [deleteTodoRoute, h]
    rw [if_pos hzero]

/-- Witness for deleteTodo_route_actual: delete the only row, 204 and the row
gone; delete again, uncaught-exception 500. -/
theorem deleteTodo_route_actual_witness :
    deleteTodoRoute ⟨[⟨1, "x", 0⟩], 1⟩ "1" = (Resp.noContent, ⟨[], 1⟩) ∧
    (deleteTodoRoute (deleteTodoRoute ⟨[⟨1, "x", 0⟩], 1⟩ "1").2 "1").1 =
      Resp.uncaught500 :=
  ⟨(deleteTodo_route_actual ⟨[⟨1, "x", 0⟩], 1⟩ "1" 1 (by decide)).1
      ⟨⟨1, "x", 0⟩, by decide, rfl⟩,
   (deleteTodo_route_actual ⟨[⟨1, "x", 0⟩], 1⟩ "1" 1 (by decide)).2.2.2.1
      ⟨⟨1, "x", 0⟩, by decide, rfl⟩⟩

/-- C7: create/read round trip: from any reachable table state, creating a
todo and then looking up the id of the record the create returned yields
exactly that record. -/
theorem create_then_get_roundtrip (σ : TodoState) (title : String)
    (h : Reachable σ) :
    findTodo (createTodo σ title).2 (createTodo σ title).1.id =
      some (createTodo σ title).1 := by
  have hb := reachable_idsBounded h
  have hnone : σ.rows.find? (fun r => r.id == σ.seq + 1) = none := by
    rw [List.find?_eq_none]
    intro r hr
    have hle := hb r hr
    simp only [beq_iff_eq]
    omega
  show (σ.rows ++ [(⟨σ.seq + 1, title, 0⟩ : Todo)]).find?
      (fun r => r.id == σ.seq + 1) = some ⟨σ.seq + 1, title, 0⟩
  rw [find_append_none _ _ hnone]
  simp [List.find?_cons]

/-- Witness for create_then_get_roundtrip: create into the empty store and
read the result back. -/
theorem create_then_get_roundtrip_witness :
    findTodo (createTodo ⟨[], 0⟩ "Buy milk").2
        (createTodo ⟨[], 0⟩ "Buy milk").1.id =
      some (createTodo ⟨[], 0⟩ "Buy milk").1 :=
  create_then_get_roundtrip ⟨[], 0⟩ "Buy milk" Reachable.init

/-- C8: frame over other rows: updating or deleting id k neither changes the
lookup of any other id j nor removes or rewrites any row whose id differs
from k, and create only appends, leaving every pre-existing row in place. -/
theorem frame_other_rows (σ : TodoState) (k j : Int) (b : UpdateBody)
    (title : String) (h : ¬ j = k) :
    findTodo (updateRows σ k b) j = findTodo σ j ∧
    findTodo (deleteTodo σ k).2 j = findTodo σ j ∧
    (∀ r ∈ σ.rows, ¬ r.id = k → r ∈ (updateRows σ k b).rows) ∧
    (∀ r ∈ σ.rows, ¬ r.id = k → r ∈ (deleteTodo σ k).2.rows) ∧
    (createTodo σ title).2.rows = σ.rows ++ [(createTodo σ title).1] := by
  refine ⟨find_map_update_ne σ.rows k j b h, find_filter_ne σ.rows k j h,
    ?_, ?_, rfl⟩
  · intro r hr hrk
    exact List.mem_map.mpr
      ⟨r, hr, if_neg (fun hc => hrk (beq_iff_eq.mp hc))⟩
  · intro r hr hrk
    refine List.mem_filter.mpr ⟨hr, ?_⟩
    have : (r.id == k) = false := by
      cases hc : (r.id == k) with
      | false => rfl
      | true => exact absurd (beq_iff_eq.mp hc) hrk
    rw [this]
    rfl

/-- Witness for frame_other_rows: updating id 1 leaves the lookup of id 2
unchanged. -/
theorem frame_other_rows_witness :
    findTodo (updateRows ⟨[⟨1, "a", 0⟩, ⟨2, "b", 0⟩], 2⟩ 1
        ⟨none, some true⟩) 2 =
      findTodo ⟨[⟨1, "a", 0⟩, ⟨2, "b", 0⟩], 2⟩ 2 :=
  (frame_other_rows ⟨[⟨1, "a", 0⟩, ⟨2, "b", 0⟩], 2⟩ 1 2 ⟨none, some true⟩
    "c" (by decide)).1

/-- C9: in every table state reachable from the freshly created empty table,
the completed column of every row is exactly 0 or 1: the table starts empty,
create inserts 0, and update writes 1 or 0 from the supplied boolean. -/
theorem completed_invariant (σ : TodoState) (h : Reachable σ) :
    ∀ r ∈ σ.rows, r.completed = 0 ∨ r.completed = 1 := by
  induction h with
  | init =>
    intro r hr
    exact absurd hr (List.not_mem_nil r)
  | create σ b _ ih =>
    intro r hr
    rcases List.mem_append.mp hr with hr | hr
    · exact ih r hr
    · rcases List.mem_singleton.mp hr with rfl
      exact Or.inl rfl
  | put σ raw b _ ih =>
    rcases putTodoRoute_state σ raw b with h2 | ⟨id, h2⟩
    · rw [h2]
      exact ih
    · rw [h2]
      intro r hr
      rcases (updateRows_shape σ id b).2 r hr with ⟨r0, hr0, _, hcomp⟩
      rcases hcomp with hcomp | hcomp | hcomp
      · rw [hcomp]
        exact ih r0 hr0
      · exact Or.inl hcomp
      · exact Or.inr hcomp
  | del σ raw _ ih =>
    rcases deleteTodoRoute_state σ raw with h2 | ⟨id, h2⟩
    · rw [h2]
      exact ih
    · rw [h2]
      intro r hr
      exact ih r (List.mem_of_mem_filter hr)

/-- Witness for completed_invariant: the row created by one POST into the
empty table is stored with completed value 0 or 1. -/
theorem completed_invariant_witness :
    (⟨1, "Buy milk", 0⟩ : Todo) ∈
      (postTodosRoute ⟨[], 0⟩
        (⟨"Buy milk", some 7, some true, []⟩ : CreateBody)).2.rows ∧
    ((⟨1, "Buy milk", 0⟩ : Todo).completed = 0 ∨
     (⟨1, "Buy milk", 0⟩ : Todo).completed = 1) :=
  ⟨by decide,
   completed_invariant _
     (Reachable.create ⟨[], 0⟩
       (⟨"Buy milk", some 7, some true, []⟩ : CreateBody) Reachable.init)
     ⟨1, "Buy milk", 0⟩ (by decide)⟩


end TodoApi
